import Mathlib

/-!
Shallow embedding of the claude-hub Resource Scheduler & Session Failover
Controller (account selector, session registry, usage cache, PTY rate-limit
monitor, failover controller), with theorems checking the specification's
claims against the embedded code.

Conventions of the embedding:
* JavaScript numbers (percentages, scores, `Date.getTime()` millisecond
  instants) are modelled as `ℚ`.
* File-system state (the persisted selector state) and the process-liveness
  probe are passed explicitly: `loadState()` becomes a `SelectorState`
  argument, `isProcessRunning` becomes an `alive : Nat → Bool` oracle,
  `new Date()` becomes a `now : ℚ` argument.
* JavaScript strings are `String`; the PTY output buffer is modelled as
  `List Char` (JS `slice(-500)` keeps the last 500 code units).
* `Array.prototype.sort` is stable (ES2019); it is embedded as a stable
  insertion sort `sortStable` on the comparator's "may come first" relation.
-/

/-- From `src/usage/api.ts`: parsed usage data for one account.
Display-only fields (`emailAddress`, the formatted reset strings,
`fiveHourUsed`/`sevenDayUsed` mirrors) are kept only where a claim needs
them. `error?: string` is `Option String`; the JS truthiness test
`!u.error` is `u.error.isNone` (error messages are never empty). -/
structure APIUsageData where
  accountName : String
  fiveHourUsed : ℚ
  fiveHourRemaining : ℚ
  fiveHourResetsAt : ℚ
  sevenDayUsed : ℚ
  sevenDayRemaining : ℚ
  sevenDayResetsAt : ℚ
  error : Option String
deriving DecidableEq

/-- From `src/usage/selector.ts`: one registered live session. -/
structure ActiveSession where
  account : String
  pid : Nat
  startedAt : String
deriving DecidableEq

/-- From `src/usage/selector.ts`: the persisted selector state file. -/
structure SelectorState where
  lastUsedAccount : Option String
  lastUsedAt : Option String
  activeSessions : List ActiveSession
deriving DecidableEq

/-- From `src/usage/selector.ts`: the selector's result. -/
structure AccountSelection where
  accountName : String
  sessionRemaining : ℚ
  weeklyRemaining : ℚ
  score : ℚ
  isRateLimited : Bool
  resetsAt : Option ℚ
deriving DecidableEq

/-- From `src/usage/selector.ts`: a scored candidate (the debug-only
`penalties` string list is omitted). -/
structure ScoredAccount where
  usage : APIUsageData
  baseScore : ℚ
  adjustedScore : ℚ
deriving DecidableEq

-- Configuration constants from `src/usage/selector.ts`.

def WEIGHT_SESSION : ℚ := 0.6

def WEIGHT_WEEKLY : ℚ := 0.4

def PENALTY_ACTIVE_SESSION : ℚ := 15

def PENALTY_LAST_USED : ℚ := 5

def BONUS_PER_HOUR_CLOSER_SESSION_RESET : ℚ := 0.5

def MAX_SESSION_RESET_HOURS_FOR_BONUS : ℚ := 24

def BONUS_PER_DAY_CLOSER_WEEKLY_RESET : ℚ := 2.5

def MAX_WEEKLY_RESET_DAYS_FOR_BONUS : ℚ := 7

/-- `cleanStaleSessions`: drop sessions whose recorded pid is not alive. -/
def cleanStaleSessions (alive : Nat → Bool) (state : SelectorState) : SelectorState :=
  { state with activeSessions := state.activeSessions.filter (fun s => alive s.pid) }

/-- `registerSession`: clean stale entries, drop any prior entry of this
process, append the new entry, update last-used, persist. -/
def registerSession (alive : Nat → Bool) (selfPid : Nat) (nowIso : String)
    (accountName : String) (state : SelectorState) : SelectorState :=
  let cleaned := cleanStaleSessions alive state
  let withoutSelf := cleaned.activeSessions.filter (fun s => s.pid != selfPid)
  { lastUsedAccount := some accountName
    lastUsedAt := some nowIso
    activeSessions := withoutSelf ++ [⟨accountName, selfPid, nowIso⟩] }

/-- `unregisterSession`: drop this process's entry, persist. -/
def unregisterSession (selfPid : Nat) (state : SelectorState) : SelectorState :=
  { state with activeSessions := state.activeSessions.filter (fun s => s.pid != selfPid) }

/-- `getActiveAccounts` builds a JS `Set` used only for membership tests;
embedded as the account-name list. -/
def getActiveAccounts (state : SelectorState) : List String :=
  state.activeSessions.map (fun s => s.account)

/-- `hoursUntil(date)` with `new Date()` passed explicitly (both in ms). -/
def hoursUntil (now date : ℚ) : ℚ :=
  max 0 ((date - now) / (1000 * 60 * 60))

/-- `daysUntil(date)`. -/
def daysUntil (now date : ℚ) : ℚ :=
  hoursUntil now date / 24

/-- `calculateBaseScore`. -/
def calculateBaseScore (usage : APIUsageData) : ℚ :=
  usage.fiveHourRemaining * WEIGHT_SESSION + usage.sevenDayRemaining * WEIGHT_WEEKLY

/-- `calculateSessionResetBonus`. -/
def calculateSessionResetBonus (now : ℚ) (usage : APIUsageData) : ℚ :=
  let hoursToReset := hoursUntil now usage.fiveHourResetsAt
  let cappedHours := min hoursToReset MAX_SESSION_RESET_HOURS_FOR_BONUS
  (MAX_SESSION_RESET_HOURS_FOR_BONUS - cappedHours) * BONUS_PER_HOUR_CLOSER_SESSION_RESET

/-- `calculateWeeklyResetBonus`. -/
def calculateWeeklyResetBonus (now : ℚ) (usage : APIUsageData) : ℚ :=
  let daysToReset := daysUntil now usage.sevenDayResetsAt
  let cappedDays := min daysToReset MAX_WEEKLY_RESET_DAYS_FOR_BONUS
  (MAX_WEEKLY_RESET_DAYS_FOR_BONUS - cappedDays) * BONUS_PER_DAY_CLOSER_WEEKLY_RESET

/-- The candidate filter shared by `scoreAccounts` and `selectBestAccount`:
`!u.error && u.accountName !== excludeAccount`. -/
def candidateFilter (excludeAccount : Option String) (u : APIUsageData) : Bool :=
  u.error.isNone && some u.accountName != excludeAccount

/-- `scoreAccounts`: filter, then score with penalties and bonuses in the
source's order (active-session penalty, last-used penalty, session reset
bonus, weekly reset bonus). -/
def scoreAccounts (now : ℚ) (usages : List APIUsageData) (state : SelectorState)
    (excludeAccount : Option String) : List ScoredAccount :=
  let activeAccounts := getActiveAccounts state
  (usages.filter (candidateFilter excludeAccount)).map (fun usage =>
    let baseScore := calculateBaseScore usage
    let s1 := if activeAccounts.contains usage.accountName then
        baseScore - PENALTY_ACTIVE_SESSION else baseScore
    let s2 := if state.lastUsedAccount = some usage.accountName then
        s1 - PENALTY_LAST_USED else s1
    let s3 := s2 + calculateSessionResetBonus now usage
    let s4 := s3 + calculateWeeklyResetBonus now usage
    { usage := usage, baseScore := baseScore, adjustedScore := s4 })

/-- Stable insertion: place `x` before the first element `y` of the (already
sorted) tail with `le x y = false`. `le x y = true` means the comparator
allows `x` to come before `y`. -/
def insertStable (le : α → α → Bool) (x : α) : List α → List α
  | [] => [x]
  | y :: ys => if le x y then x :: y :: ys else y :: insertStable le x ys

/-- Stable insertion sort, embedding JS `Array.prototype.sort` (stable per
ES2019) on the relation induced by the numeric comparator. -/
def sortStable (le : α → α → Bool) : List α → List α
  | [] => []
  | x :: xs => insertStable le x (sortStable le xs)

/-- Comparator `(a, b) => b.adjustedScore - a.adjustedScore` (descending):
`a` may come before `b` iff `b.adjustedScore ≤ a.adjustedScore`. -/
def scoreDescLe (a b : ScoredAccount) : Bool :=
  decide (b.adjustedScore ≤ a.adjustedScore)

/-- Comparator `(a, b) => a.fiveHourResetsAt.getTime() - b.fiveHourResetsAt.getTime()`
(ascending): `a` may come before `b` iff `a.fiveHourResetsAt ≤ b.fiveHourResetsAt`. -/
def resetAscLe (a b : APIUsageData) : Bool :=
  decide (a.fiveHourResetsAt ≤ b.fiveHourResetsAt)

/-- The filtered candidate list of `selectBestAccount` step 1. -/
def candidatesOf (usages : List APIUsageData) (excludeAccount : Option String) :
    List APIUsageData :=
  usages.filter (candidateFilter excludeAccount)

/-- The `available` partition (`fiveHourRemaining > 0`). -/
def availableOf (usages : List APIUsageData) (excludeAccount : Option String) :
    List APIUsageData :=
  (candidatesOf usages excludeAccount).filter (fun u => decide (0 < u.fiveHourRemaining))

/-- The `rateLimited` partition (`fiveHourRemaining <= 0`). -/
def rateLimitedOf (usages : List APIUsageData) (excludeAccount : Option String) :
    List APIUsageData :=
  (candidatesOf usages excludeAccount).filter (fun u => decide (u.fiveHourRemaining ≤ 0))

/-- `selectBestAccount` from `src/usage/selector.ts`. -/
def selectBestAccount (now : ℚ) (alive : Nat → Bool) (persisted : SelectorState)
    (usages : List APIUsageData) (excludeAccount : Option String) :
    Option AccountSelection :=
  if usages.isEmpty then none else
  let state := cleanStaleSessions alive persisted
  let candidates := candidatesOf usages excludeAccount
  if candidates.isEmpty then none else
  let available := availableOf usages excludeAccount
  let rateLimited := rateLimitedOf usages excludeAccount
  if available.isEmpty then
    match sortStable resetAscLe rateLimited with
    | [] => none
    | best :: _ =>
      some { accountName := best.accountName
             sessionRemaining := best.fiveHourRemaining
             weeklyRemaining := best.sevenDayRemaining
             score := 0
             isRateLimited := true
             resetsAt := some best.fiveHourResetsAt }
  else
    match sortStable scoreDescLe (scoreAccounts now available state excludeAccount) with
    | [] => none
    | best :: _ =>
      some { accountName := best.usage.accountName
             sessionRemaining := best.usage.fiveHourRemaining
             weeklyRemaining := best.usage.sevenDayRemaining
             score := best.adjustedScore
             isRateLimited := false
             resetsAt := none }

/-- `selectNextAccount`. -/
def selectNextAccount (now : ℚ) (alive : Nat → Bool) (persisted : SelectorState)
    (usages : List APIUsageData) (currentAccount : String) : Option AccountSelection :=
  selectBestAccount now alive persisted usages (some currentAccount)

-- ===========================================================================
-- Usage cache (`getAllAPIUsage` in `src/usage/api.ts`)
-- ===========================================================================

def USAGE_CACHE_SECONDS : ℚ := 30

/-- The module-level cache state of `src/usage/api.ts`. -/
structure UsageCache where
  cachedUsageData : Option (List APIUsageData)
  lastFetchTime : ℚ
deriving DecidableEq

/-- `getAllAPIUsage`: serve the cache while it is fresh and no non-errored
cached snapshot has a five-hour reset instant in the past; otherwise fetch
(the fetch result is a parameter). Returns the new cache state, the data
returned to the caller, and whether the cache was served. -/
def getAllAPIUsage (cache : UsageCache) (now : ℚ) (fetchResults : List APIUsageData) :
    UsageCache × List APIUsageData × Bool :=
  match cache.cachedUsageData with
  | some data =>
    if (now - cache.lastFetchTime) / 1000 < USAGE_CACHE_SECONDS then
      let hasStaleResetTime :=
        data.any (fun u => u.error.isNone && decide (u.fiveHourResetsAt < now))
      if hasStaleResetTime then (⟨some fetchResults, now⟩, fetchResults, false)
      else (cache, data, true)
    else (⟨some fetchResults, now⟩, fetchResults, false)
  | none => (⟨some fetchResults, now⟩, fetchResults, false)

-- ===========================================================================
-- PTY rate-limit monitor (`createPtyWrapper` onData handler)
-- ===========================================================================

/-- JS `String.prototype.includes` on code-unit lists. -/
def jsIncludes (hay needle : List Char) : Bool :=
  (List.range (hay.length + 1)).any (fun i => needle.isPrefixOf (hay.drop i))

/-- JS `String.prototype.includes` on `String`. -/
def jsStringIncludes (hay needle : String) : Bool :=
  jsIncludes hay.data needle.data

def RATE_LIMIT_TRIGGER : List Char := "You've hit your limit".data

/-- The mutable closure state of the `onData` handler: the trailing output
buffer and the `rateLimitDetected` latch. -/
structure PtyMonitorState where
  outputBuffer : List Char
  rateLimitDetected : Bool
deriving DecidableEq

def initialPtyMonitorState : PtyMonitorState := ⟨[], false⟩

/-- Buffer update of `onData`: append the chunk, keep the last 500 chars
(JS `slice(-500)`). -/
def pushBuffer (buf data : List Char) : List Char :=
  let buf0 := buf ++ data
  if 500 < buf0.length then buf0.drop (buf0.length - 500) else buf0

/-- One `onData` callback: update the buffer, then fire the rate-limit event
(returned Bool) iff not already detected and the buffer contains the marker. -/
def onDataStep (s : PtyMonitorState) (data : List Char) : PtyMonitorState × Bool :=
  let buf := pushBuffer s.outputBuffer data
  if !s.rateLimitDetected && jsIncludes buf RATE_LIMIT_TRIGGER then
    (⟨buf, true⟩, true)
  else
    (⟨buf, s.rateLimitDetected⟩, false)

/-- Run the `onData` handler over a whole sequence of output chunks,
collecting the fired/not-fired flag of every step. -/
def runOnData : PtyMonitorState → List (List Char) → PtyMonitorState × List Bool
  | s, [] => (s, [])
  | s, d :: ds =>
    let step := onDataStep s d
    let rest := runOnData step.1 ds
    (rest.1, step.2 :: rest.2)

/-- Specification-side: whether the trailing buffer contains the marker
after each successive chunk (ignoring the latch). -/
def markerHits : List Char → List (List Char) → List Bool
  | _, [] => []
  | buf, d :: ds =>
    let buf1 := pushBuffer buf d
    jsIncludes buf1 RATE_LIMIT_TRIGGER :: markerHits buf1 ds

/-- Specification-side: keep only the first `true` of a boolean trace. -/
def firstTrueOnly : List Bool → List Bool
  | [] => []
  | b :: bs => if b then true :: bs.map (fun _ => false) else false :: firstTrueOnly bs

-- ===========================================================================
-- Failover controller (`launchClaudeWithPty` in the interception module)
-- ===========================================================================

/-- What a failover trigger ends up doing. -/
inductive FailoverAction where
  | dropped
  | waitNotice
  | switched (nextAccountName : String)
deriving DecidableEq

/-- The two closure flags of `launchClaudeWithPty`. -/
structure FailoverFlags where
  isHandlingRateLimit : Bool
  isHandlingManualSwitch : Bool
deriving DecidableEq

/-- `onRateLimitDetected` of `launchClaudeWithPty`: guard on
`!autoSwitch || isHandlingRateLimit`, set the rate-limit flag, consult the
selector excluding the current account; if no usable selection, log a
waiting notice and stay; otherwise kill and relaunch (`switched`). -/
def onRateLimitDetected (autoSwitch : Bool) (flags : FailoverFlags) (now : ℚ)
    (alive : Nat → Bool) (persisted : SelectorState) (usageData : List APIUsageData)
    (accountName : String) : FailoverFlags × FailoverAction :=
  if !autoSwitch || flags.isHandlingRateLimit then (flags, .dropped)
  else
    let flags1 : FailoverFlags := { flags with isHandlingRateLimit := true }
    match selectNextAccount now alive persisted usageData accountName with
    | none => (flags1, .waitNotice)
    | some next =>
      if next.isRateLimited then (flags1, .waitNotice)
      else (flags1, .switched next.accountName)

/-- `switchAccount` of the command context: unconditionally set the
manual-switch flag, kill the current supervisor and relaunch on the
requested account — there is no in-flight guard on this path. -/
def switchAccount (flags : FailoverFlags) (newAccountName : String) :
    FailoverFlags × FailoverAction :=
  ({ flags with isHandlingManualSwitch := true }, .switched newAccountName)

-- ===========================================================================
-- Replacement argument construction (the two `--resume` injection sites)
-- ===========================================================================

/-- The manual-switch filter:
`claudeArgs.filter((a, i) => !(a === '--resume') && !(i > 0 && claudeArgs[i-1] === '--resume'))`. -/
def manualResumeFilter (claudeArgs : List String) : List String :=
  (claudeArgs.enum.filter (fun p =>
    !(p.2 == "--resume") &&
    !(p.1 != 0 && claudeArgs.getD (p.1 - 1) "" == "--resume"))).map (fun p => p.2)

/-- `switchAccount`'s replacement argument list: when a session id was
found, `['--resume', sessionId, ...filteredArgs]`; otherwise the prior args. -/
def manualResumeArgs (claudeArgs : List String) (sessionId : Option String) :
    List String :=
  match sessionId with
  | none => claudeArgs
  | some sid => "--resume" :: sid :: manualResumeFilter claudeArgs

/-- `onRateLimitDetected`'s replacement argument list:
`['--resume', sessionId, ...claudeArgs.filter(a => a !== '--resume' && !claudeArgs[claudeArgs.indexOf('--resume') + 1]?.includes(a))]`.
JS `indexOf` is -1 when absent; an out-of-bounds index yields `undefined`,
and `!undefined?.includes(a)` is `true`. -/
def rateLimitResumeArgs (claudeArgs : List String) (sessionId : Option String) :
    List String :=
  match sessionId with
  | none => claudeArgs
  | some sid =>
    let idx : Int := match claudeArgs.findIdx? (fun a => a == "--resume") with
      | some i => (i : Int)
      | none => -1
    let next : Option String := claudeArgs[(idx + 1).toNat]?
    "--resume" :: sid :: claudeArgs.filter (fun a =>
      !(a == "--resume") &&
      (match next with
       | none => true
       | some nx => !(jsStringIncludes nx a)))

-- ===========================================================================
-- Generic lemmas: stable insertion sort and the first-best element
-- ===========================================================================

/-- Specification-side: the first element of `l` that no later element
strictly beats (`lt a b` = "a strictly better than b"). -/
def firstBest (lt : α → α → Bool) : List α → Option α
  | [] => none
  | x :: xs =>
    match firstBest lt xs with
    | none => some x
    | some m => if lt m x then some m else some x

theorem firstBest_eq_none (lt : α → α → Bool) (l : List α) :
    firstBest lt l = none ↔ l = [] := by
  cases l with
  | nil => simp [firstBest]
  | cons x xs =>
    rw [firstBest]
    cases firstBest lt xs with
    | none => simp
    | some m => by_cases h : lt m x <;> simp [h]

theorem insertStable_length (le : α → α → Bool) (x : α) (l : List α) :
    (insertStable le x l).length = l.length + 1 := by
  induction l with
  | nil => rfl
  | cons y ys ih =>
    rw [insertStable]
    by_cases h : le x y <;> simp [h, ih]

theorem sortStable_length (le : α → α → Bool) (l : List α) :
    (sortStable le l).length = l.length := by
  induction l with
  | nil => rfl
  | cons x xs ih => rw [sortStable, insertStable_length, ih]; rfl

theorem sortStable_eq_nil (le : α → α → Bool) (l : List α) :
    sortStable le l = [] ↔ l = [] := by
  constructor
  · intro h
    have := sortStable_length le l
    rw [h] at this
    exact List.length_eq_zero.mp this.symm
  · intro h; subst h; rfl

theorem mem_insertStable (le : α → α → Bool) (x a : α) (l : List α) :
    a ∈ insertStable le x l ↔ a = x ∨ a ∈ l := by
  induction l with
  | nil => simp [insertStable]
  | cons y ys ih =>
    rw [insertStable]
    by_cases h : le x y
    · simp [h]
    · simp [h, ih]
      tauto

theorem mem_sortStable (le : α → α → Bool) (a : α) (l : List α) :
    a ∈ sortStable le l ↔ a ∈ l := by
  induction l with
  | nil => simp [sortStable]
  | cons x xs ih =>
    rw [sortStable, mem_insertStable, ih]
    simp

/-- The head of the stable sort is the first element of the input that no
later element strictly beats (with `lt a b := !(le b a)`). -/
theorem sortStable_head (le : α → α → Bool) (l : List α) :
    (sortStable le l).head? = firstBest (fun a b => !(le b a)) l := by
  induction l with
  | nil => rfl
  | cons x xs ih =>
    rw [sortStable]
    cases hs : sortStable le xs with
    | nil =>
      rw [hs] at ih
      simp only [List.head?] at ih
      rw [firstBest, ← ih]
      rfl
    | cons m S =>
      rw [hs] at ih
      simp only [List.head?] at ih
      rw [firstBest, ← ih]
      rw [insertStable]
      by_cases hle : le x m <;> simp [hle]

/-- Characterization of `firstBest` for a strict comparison `lt` that is
irreflexive, asymmetric and cotransitive: it returns the first element that
beats every earlier element strictly and is beaten by no element at all. -/
theorem firstBest_spec (lt : α → α → Bool)
    (hirr : ∀ a, lt a a = false)
    (hasym : ∀ a b, lt a b = true → lt b a = false)
    (hcotrans : ∀ a b c, lt a c = true → lt a b = true ∨ lt b c = true) :
    ∀ (l : List α) (m : α), firstBest lt l = some m →
      ∃ l1 l2, l = l1 ++ m :: l2 ∧ (∀ y ∈ l1, lt m y = true) ∧
        (∀ y ∈ l, lt y m = false) := by
  intro l
  induction l with
  | nil => intro m h; simp [firstBest] at h
  | cons x xs ih =>
    intro m h
    rw [firstBest] at h
    cases hfb : firstBest lt xs with
    | none =>
      rw [hfb] at h
      have hxs : xs = [] := (firstBest_eq_none lt xs).mp hfb
      subst hxs
      obtain rfl : x = m := by simpa using h
      exact ⟨[], [], rfl, by simp, by simp [hirr]⟩
    | some m' =>
      rw [hfb] at h
      obtain ⟨l1, l2, hdec, hbefore, hnone⟩ := ih m' hfb
      by_cases hx : lt m' x
      · obtain rfl : m' = m := by simpa [hx] using h
        refine ⟨x :: l1, l2, by simp [hdec], ?_, ?_⟩
        · intro y hy
          rcases List.mem_cons.mp hy with rfl | hy
          · exact hx
          · exact hbefore y hy
        · intro y hy
          rcases List.mem_cons.mp hy with rfl | hy
          · exact hasym _ _ hx
          · exact hnone y hy
      · obtain rfl : x = m := by simpa [hx] using h
        refine ⟨[], xs, rfl, by simp, ?_⟩
        intro y hy
        rcases List.mem_cons.mp hy with rfl | hy
        · exact hirr y
        · by_contra hcon
          have hyx : lt y x = true := by
            cases hval : lt y x
            · exact absurd hval hcon
            · rfl
          rcases hcotrans y m' x hyx with h1 | h2
          · rw [hnone y hy] at h1; exact Bool.false_ne_true h1
          · exact hx h2

-- ===========================================================================
-- Concrete fixtures
-- ===========================================================================

def noAlive : Nat → Bool := fun _ => false

def allAlive : Nat → Bool := fun _ => true

def emptySelectorState : SelectorState := ⟨none, none, []⟩

-- ===========================================================================
-- C9 / C10: session registry
-- ===========================================================================

/-- C9: registering a session and then unregistering from the same process id
leaves the persisted activeSessions equal to the pre-registration list minus
the entries pruned along the way: stale entries whose recorded pid is not
alive, and any prior entry recorded under the calling process id. -/
theorem C9_register_unregister_roundtrip (alive : Nat → Bool) (selfPid : Nat)
    (nowIso accountName : String) (state : SelectorState) :
    (unregisterSession selfPid
        (registerSession alive selfPid nowIso accountName state)).activeSessions
      = state.activeSessions.filter (fun s => alive s.pid && s.pid != selfPid) := by
  have hsingle : List.filter (fun s => s.pid != selfPid)
      [(⟨accountName, selfPid, nowIso⟩ : ActiveSession)] = [] := by simp
  simp only [unregisterSession, registerSession, cleanStaleSessions,
    List.filter_append, List.filter_filter, hsingle, List.append_nil]
  exact List.filter_congr (fun a _ => by
    cases h1 : a.pid != selfPid <;> cases h2 : alive a.pid <;> simp [h1, h2])

/-- C10: unregisterSession removes exactly the entries whose recorded pid is
the calling process id and changes nothing else: lastUsedAccount and
lastUsedAt are left as loaded, and the remaining entries (including stale
entries of dead processes) are kept unchanged and in order — no stale-entry
pruning happens. -/
theorem C10_unregister_frame (selfPid : Nat) (state : SelectorState) :
    (unregisterSession selfPid state).lastUsedAccount = state.lastUsedAccount ∧
    (unregisterSession selfPid state).lastUsedAt = state.lastUsedAt ∧
    (unregisterSession selfPid state).activeSessions
      = state.activeSessions.filter (fun s => s.pid != selfPid) :=
  ⟨rfl, rfl, rfl⟩

-- ===========================================================================
-- C1: replacement argument construction
-- ===========================================================================

/-- C1 (code bug evidence): on the rate-limit failover path the replacement
argument list does NOT preserve the other arguments — with prior args
`["--verbose"]` (no prior `--resume` at all) and a found session id, the
rate-limit path drops `--verbose`, while the manual-switch path keeps it as
the claim describes. -/
theorem C1_rate_limit_resume_args_divergence :
    rateLimitResumeArgs ["--verbose"] (some "abc") = ["--resume", "abc"] ∧
    manualResumeArgs ["--verbose"] (some "abc") = ["--resume", "abc", "--verbose"] := by
  constructor
  · decide
  · decide

-- ===========================================================================
-- C8: rate-limit event fires at most once per session
-- ===========================================================================

theorem markerHits_length (buf : List Char) (chunks : List (List Char)) :
    (markerHits buf chunks).length = chunks.length := by
  induction chunks generalizing buf with
  | nil => rfl
  | cons d ds ih => simp [markerHits, ih]

theorem runOnData_detected (buf : List Char) (chunks : List (List Char)) :
    (runOnData ⟨buf, true⟩ chunks).2 = chunks.map (fun _ => false) := by
  induction chunks generalizing buf with
  | nil => rfl
  | cons d ds ih => simp [runOnData, onDataStep, ih]

theorem runOnData_undetected (chunks : List (List Char)) (buf : List Char) :
    (runOnData ⟨buf, false⟩ chunks).2 = firstTrueOnly (markerHits buf chunks) := by
  induction chunks generalizing buf with
  | nil => rfl
  | cons d ds ih =>
    by_cases h : jsIncludes (pushBuffer buf d) RATE_LIMIT_TRIGGER
    · simp [runOnData, onDataStep, markerHits, firstTrueOnly, h, runOnData_detected]
      rw [markerHits_length]
    · simp [runOnData, onDataStep, markerHits, firstTrueOnly, h, ih]

theorem firstTrueOnly_count (l : List Bool) : (firstTrueOnly l).count true ≤ 1 := by
  induction l with
  | nil => simp [firstTrueOnly]
  | cons b bs ih =>
    cases b
    · simpa [firstTrueOnly] using ih
    · simp [firstTrueOnly, List.map_const', List.count_replicate]

/-- C8: over any sequence of output chunks of one supervised session, the
rate-limit event fires exactly at the first chunk after which the trailing
500-char buffer contains the marker (never on later chunks, however often
the marker reappears), hence at most once per session. -/
theorem C8_rate_limit_fires_once (chunks : List (List Char)) :
    (runOnData initialPtyMonitorState chunks).2 = firstTrueOnly (markerHits [] chunks) ∧
    (runOnData initialPtyMonitorState chunks).2.count true ≤ 1 := by
  have h := runOnData_undetected chunks []
  refine ⟨h, ?_⟩
  rw [show initialPtyMonitorState = ⟨[], false⟩ from rfl, h]
  exact firstTrueOnly_count _

-- ===========================================================================
-- C2: failover in-flight guards
-- ===========================================================================

/-- Current account: rate-limited. -/
def uCurrentA : APIUsageData := ⟨"a", 100, 0, 3600000, 50, 50, 604800000, none⟩

/-- Healthy replacement candidate. -/
def uNextB : APIUsageData := ⟨"b", 0, 100, 86400000, 0, 100, 604800000, none⟩

/-- C2 (counterexample): with a manual switch already in flight
(`isHandlingManualSwitch = true`, `isHandlingRateLimit = false`), a
rate-limit detection is NOT dropped — it proceeds to kill the supervisor and
switch to account "b", contradicting the claimed mutual exclusion. -/
theorem C2_counterexample_no_cross_guard :
    (onRateLimitDetected true ⟨false, true⟩ 0 noAlive emptySelectorState
        [uCurrentA, uNextB] "a").2 = FailoverAction.switched "b" := by
  norm_num [onRateLimitDetected, selectNextAccount, selectBestAccount, candidatesOf,
    availableOf, rateLimitedOf, candidateFilter, scoreAccounts, getActiveAccounts,
    cleanStaleSessions, calculateBaseScore, calculateSessionResetBonus,
    calculateWeeklyResetBonus, hoursUntil, daysUntil, sortStable, insertStable,
    scoreDescLe, resetAscLe, WEIGHT_SESSION, WEIGHT_WEEKLY, PENALTY_ACTIVE_SESSION,
    PENALTY_LAST_USED, BONUS_PER_HOUR_CLOSER_SESSION_RESET,
    MAX_SESSION_RESET_HOURS_FOR_BONUS, BONUS_PER_DAY_CLOSER_WEEKLY_RESET,
    MAX_WEEKLY_RESET_DAYS_FOR_BONUS, uCurrentA, uNextB, emptySelectorState, noAlive,
    List.filter, List.map]
  rfl

/-- C2 (amended): the only in-flight guard is the rate-limit flag itself —
a rate-limit detection is dropped iff auto-switch is disabled or a
rate-limit failover is already in flight; the manual-switch flag does not
guard rate-limit detections, and a manual switch request is never dropped
(both flags otherwise only suppress the killed supervisor's exit handler). -/
theorem C2_amended_guards (autoSwitch : Bool) (flags : FailoverFlags) (now : ℚ)
    (alive : Nat → Bool) (persisted : SelectorState) (usageData : List APIUsageData)
    (accountName newAccountName : String) :
    ((onRateLimitDetected autoSwitch flags now alive persisted usageData accountName).2
        = FailoverAction.dropped
      ↔ (autoSwitch = false ∨ flags.isHandlingRateLimit = true)) ∧
    (switchAccount flags newAccountName).2 = FailoverAction.switched newAccountName := by
  refine ⟨?_, rfl⟩
  by_cases h : (!autoSwitch || flags.isHandlingRateLimit) = true
  · rw [onRateLimitDetected, if_pos h]
    simp only [Bool.or_eq_true, Bool.not_eq_true'] at h
    exact ⟨fun _ => h, fun _ => rfl⟩
  · rw [onRateLimitDetected, if_neg h]
    simp only [Bool.or_eq_true, Bool.not_eq_true'] at h
    push_neg at h
    constructor
    · intro hcon
      exfalso
      rcases hsel : selectNextAccount now alive persisted usageData accountName with _ | next
      · rw [hsel] at hcon; simp at hcon
      · rw [hsel] at hcon
        by_cases hrl : next.isRateLimited = true <;> simp [hrl] at hcon
    · intro hcon
      exfalso
      rcases hcon with hc | hc
      · exact h.1 hc
      · exact h.2 hc

/-- C2 (witness for the amended theorem at a concrete input). -/
theorem C2_amended_guards_witness :
    ((onRateLimitDetected false ⟨false, false⟩ 0 noAlive emptySelectorState [] "a").2
        = FailoverAction.dropped
      ↔ (false = false ∨ (⟨false, false⟩ : FailoverFlags).isHandlingRateLimit = true)) ∧
    (switchAccount ⟨false, false⟩ "b").2 = FailoverAction.switched "b" :=
  C2_amended_guards false ⟨false, false⟩ 0 noAlive emptySelectorState [] "a" "b"

-- ===========================================================================
-- C7: usage cache validity
-- ===========================================================================

/-- Cached snapshot whose weekly reset has passed but whose five-hour reset
has not. -/
def uC7 : APIUsageData := ⟨"w", 20, 80, 100000, 50, 50, 1000, none⟩

def cacheC7 : UsageCache := ⟨some [uC7], 40000⟩

/-- C7 (counterexample): at `now = 50000` the cache is only 10 s old and
`uC7`'s five-hour reset (100000) is still ahead, so the cached list is
served — even though `uC7`'s weekly reset instant (1000) has already passed.
The stale-cache detector does not cover the weekly window. -/
theorem C7_counterexample_weekly_reset_ignored :
    (getAllAPIUsage cacheC7 50000 []).2.2 = true ∧
    uC7.error.isNone = true ∧ uC7.sevenDayResetsAt < 50000 := by
  refine ⟨?_, rfl, by norm_num [uC7]⟩
  norm_num [getAllAPIUsage, cacheC7, uC7, USAGE_CACHE_SECONDS, List.any]

/-- C7 (amended): the cached usage list is served iff there is cached data,
it is younger than the cache interval, and no non-errored cached snapshot
has a five-hour (session-window) reset instant in the past; the weekly
reset instant is not consulted. When served, the caller receives exactly the
cached list. -/
theorem C7_cache_serving_rule (cache : UsageCache) (now : ℚ)
    (fetchResults : List APIUsageData) :
    (getAllAPIUsage cache now fetchResults).2.2 = true ↔
      ∃ data, cache.cachedUsageData = some data ∧
        (now - cache.lastFetchTime) / 1000 < USAGE_CACHE_SECONDS ∧
        (∀ u ∈ data, u.error.isNone = true → ¬(u.fiveHourResetsAt < now)) ∧
        (getAllAPIUsage cache now fetchResults).2.1 = data := by
  rcases cache with ⟨cd, lft⟩
  cases cd with
  | none => simp [getAllAPIUsage]
  | some data =>
    simp only [getAllAPIUsage]
    by_cases hfresh : (now - lft) / 1000 < USAGE_CACHE_SECONDS
    · rw [if_pos hfresh]
      by_cases hstale :
          (data.any (fun u => u.error.isNone && decide (u.fiveHourResetsAt < now))) = true
      · rw [if_pos hstale]
        rw [List.any_eq_true] at hstale
        obtain ⟨u, hu, hprop⟩ := hstale
        rw [Bool.and_eq_true, decide_eq_true_iff] at hprop
        constructor
        · intro hcon; exact absurd hcon (by simp)
        · rintro ⟨d, hd, -, hall, -⟩
          obtain rfl : data = d := Option.some_inj.mp hd
          exact absurd hprop.2 (hall u hu hprop.1)
      · rw [if_neg hstale]
        rw [List.any_eq_true] at hstale
        constructor
        · intro _
          refine ⟨data, rfl, hfresh, ?_, rfl⟩
          intro u hu herr hlt
          exact hstale ⟨u, hu, by rw [Bool.and_eq_true, decide_eq_true_iff]; exact ⟨herr, hlt⟩⟩
        · intro _; rfl
    · rw [if_neg hfresh]
      constructor
      · intro hcon; exact absurd hcon (by simp)
      · rintro ⟨d, hd, hfr, -, -⟩
        exact absurd hfr hfresh

/-- C7 (witness for the amended theorem at a concrete input: the fixture
cache is served, and the characterization confirms it). -/
theorem C7_cache_serving_rule_witness :
    (getAllAPIUsage cacheC7 50000 []).2.2 = true ↔
      ∃ data, cacheC7.cachedUsageData = some data ∧
        (50000 - cacheC7.lastFetchTime) / 1000 < USAGE_CACHE_SECONDS ∧
        (∀ u ∈ data, u.error.isNone = true → ¬(u.fiveHourResetsAt < (50000 : ℚ))) ∧
        (getAllAPIUsage cacheC7 50000 []).2.1 = data :=
  C7_cache_serving_rule cacheC7 50000 []

-- ===========================================================================
-- C3 / C4 / C5 / C6: the selector
-- ===========================================================================

/-- The scored candidate list that the scored path of `selectBestAccount`
sorts: the available candidates, scored against the cleaned registry state. -/
def scoredOf (now : ℚ) (alive : Nat → Bool) (persisted : SelectorState)
    (usages : List APIUsageData) (excludeAccount : Option String) : List ScoredAccount :=
  scoreAccounts now (availableOf usages excludeAccount) (cleanStaleSessions alive persisted)
    excludeAccount

theorem scoreLt_irrefl (a : ScoredAccount) : (!(scoreDescLe a a)) = false := by
  simp [scoreDescLe]

theorem scoreLt_asymm (a b : ScoredAccount) :
    (!(scoreDescLe b a)) = true → (!(scoreDescLe a b)) = false := by
  intro hab
  have h1 : ¬ (a.adjustedScore ≤ b.adjustedScore) := by
    simpa [scoreDescLe] using hab
  simp [scoreDescLe, le_of_not_le h1]

theorem scoreLt_cotrans (a b c : ScoredAccount) :
    (!(scoreDescLe c a)) = true →
      (!(scoreDescLe b a)) = true ∨ (!(scoreDescLe c b)) = true := by
  simp only [scoreDescLe, Bool.not_eq_true', decide_eq_false_iff_not]
  intro hac
  by_contra hcon
  push_neg at hcon
  exact hac (le_trans hcon.1 hcon.2)

theorem resetLt_irrefl (a : APIUsageData) : (!(resetAscLe a a)) = false := by
  simp [resetAscLe]

theorem resetLt_asymm (a b : APIUsageData) :
    (!(resetAscLe b a)) = true → (!(resetAscLe a b)) = false := by
  intro hab
  have h1 : ¬ (b.fiveHourResetsAt ≤ a.fiveHourResetsAt) := by
    simpa [resetAscLe] using hab
  simp [resetAscLe, le_of_not_le h1]

theorem resetLt_cotrans (a b c : APIUsageData) :
    (!(resetAscLe c a)) = true →
      (!(resetAscLe b a)) = true ∨ (!(resetAscLe c b)) = true := by
  simp only [resetAscLe, Bool.not_eq_true', decide_eq_false_iff_not]
  intro hac
  by_contra hcon
  push_neg at hcon
  exact hac (le_trans hcon.2 hcon.1)

/-- C3: whenever, after dropping errored and excluded snapshots, some
candidate has positive session remaining, `selectBestAccount` returns a
non-rate-limited selection carrying the scored candidate with maximal
adjusted (final) score, ties resolving to the first such candidate in
snapshot input order. -/
theorem C3_scored_path_maximal (now : ℚ) (alive : Nat → Bool)
    (persisted : SelectorState) (usages : List APIUsageData)
    (excludeAccount : Option String)
    (h : ∃ u ∈ usages, candidateFilter excludeAccount u = true ∧ 0 < u.fiveHourRemaining) :
    ∃ m l1 l2,
      scoredOf now alive persisted usages excludeAccount = l1 ++ m :: l2 ∧
      (∀ y ∈ l1, y.adjustedScore < m.adjustedScore) ∧
      (∀ y ∈ scoredOf now alive persisted usages excludeAccount,
        y.adjustedScore ≤ m.adjustedScore) ∧
      selectBestAccount now alive persisted usages excludeAccount =
        some ⟨m.usage.accountName, m.usage.fiveHourRemaining,
          m.usage.sevenDayRemaining, m.adjustedScore, false, none⟩ := by
  obtain ⟨u, hu, hcf, hpos⟩ := h
  have huc : u ∈ candidatesOf usages excludeAccount :=
    List.mem_filter.mpr ⟨hu, hcf⟩
  have hua : u ∈ availableOf usages excludeAccount :=
    List.mem_filter.mpr ⟨huc, by simpa using hpos⟩
  have hufc : u ∈ (availableOf usages excludeAccount).filter (candidateFilter excludeAccount) :=
    List.mem_filter.mpr ⟨hua, hcf⟩
  have husages : usages.isEmpty = false := by
    cases usages with
    | nil => cases hu
    | cons a l => rfl
  have hcand : (candidatesOf usages excludeAccount).isEmpty = false := by
    cases hc : candidatesOf usages excludeAccount with
    | nil => rw [hc] at huc; cases huc
    | cons a l => rfl
  have havail : (availableOf usages excludeAccount).isEmpty = false := by
    cases hc : availableOf usages excludeAccount with
    | nil => rw [hc] at hua; cases hua
    | cons a l => rfl
  have hscored_ne : scoredOf now alive persisted usages excludeAccount ≠ [] := by
    simp only [scoredOf, scoreAccounts]
    intro hc
    rw [List.map_eq_nil_iff] at hc
    rw [hc] at hufc
    cases hufc
  rcases hs : sortStable scoreDescLe (scoredOf now alive persisted usages excludeAccount)
    with _ | ⟨best, rest⟩
  · exact absurd ((sortStable_eq_nil _ _).mp hs) hscored_ne
  · have hhead : (sortStable scoreDescLe
        (scoredOf now alive persisted usages excludeAccount)).head? = some best := by
      rw [hs]; rfl
    rw [sortStable_head] at hhead
    obtain ⟨l1, l2, hdec, hbefore, hnone⟩ :=
      firstBest_spec (fun a b => !(scoreDescLe b a))
        scoreLt_irrefl scoreLt_asymm scoreLt_cotrans
        (scoredOf now alive persisted usages excludeAccount) best hhead
    refine ⟨best, l1, l2, hdec, ?_, ?_, ?_⟩
    · intro y hy
      have := hbefore y hy
      simpa [scoreDescLe, not_le] using this
    · intro y hy
      have := hnone y hy
      simpa [scoreDescLe] using this
    · simp only [selectBestAccount, husages, hcand, havail, Bool.false_eq_true,
        if_false]
      rw [show scoreAccounts now (availableOf usages excludeAccount)
          (cleanStaleSessions alive persisted) excludeAccount
          = scoredOf now alive persisted usages excludeAccount from rfl, hs]

/-- C4: when the eligible candidate list is non-empty and every candidate
has zero session remaining, `selectBestAccount` returns the candidate with
the earliest five-hour reset instant (ties resolving to the first such
candidate in snapshot input order), marked rate-limited, with `resetsAt`
equal to that candidate's reset instant. -/
theorem C4_all_exhausted_earliest_reset (now : ℚ) (alive : Nat → Bool)
    (persisted : SelectorState) (usages : List APIUsageData)
    (excludeAccount : Option String)
    (hne : candidatesOf usages excludeAccount ≠ [])
    (hzero : ∀ u ∈ candidatesOf usages excludeAccount, u.fiveHourRemaining = 0) :
    ∃ m l1 l2,
      candidatesOf usages excludeAccount = l1 ++ m :: l2 ∧
      (∀ y ∈ l1, m.fiveHourResetsAt < y.fiveHourResetsAt) ∧
      (∀ y ∈ candidatesOf usages excludeAccount,
        m.fiveHourResetsAt ≤ y.fiveHourResetsAt) ∧
      selectBestAccount now alive persisted usages excludeAccount =
        some ⟨m.accountName, m.fiveHourRemaining, m.sevenDayRemaining, 0, true,
          some m.fiveHourResetsAt⟩ := by
  obtain ⟨u0, hu0⟩ := List.exists_mem_of_ne_nil _ hne
  have hu0u : u0 ∈ usages := (List.mem_filter.mp hu0).1
  have husages : usages.isEmpty = false := by
    cases usages with
    | nil => cases hu0u
    | cons a l => rfl
  have hcand : (candidatesOf usages excludeAccount).isEmpty = false := by
    cases hc : candidatesOf usages excludeAccount with
    | nil => exact absurd hc hne
    | cons a l => rfl
  have havailEmpty : availableOf usages excludeAccount = [] := by
    rw [availableOf, List.filter_eq_nil_iff]
    intro u hu
    rw [hzero u hu]
    simp
  have hrl : rateLimitedOf usages excludeAccount = candidatesOf usages excludeAccount := by
    rw [rateLimitedOf, List.filter_eq_self]
    intro u hu
    rw [hzero u hu]
    simp
  have havail : (availableOf usages excludeAccount).isEmpty = true := by
    rw [havailEmpty]; rfl
  rcases hs : sortStable resetAscLe (candidatesOf usages excludeAccount)
    with _ | ⟨best, rest⟩
  · exact absurd ((sortStable_eq_nil _ _).mp hs) hne
  · have hhead : (sortStable resetAscLe
        (candidatesOf usages excludeAccount)).head? = some best := by
      rw [hs]; rfl
    rw [sortStable_head] at hhead
    obtain ⟨l1, l2, hdec, hbefore, hnone⟩ :=
      firstBest_spec (fun a b => !(resetAscLe b a))
        resetLt_irrefl resetLt_asymm resetLt_cotrans
        (candidatesOf usages excludeAccount) best hhead
    refine ⟨best, l1, l2, hdec, ?_, ?_, ?_⟩
    · intro y hy
      have := hbefore y hy
      simpa [resetAscLe, not_le] using this
    · intro y hy
      have := hnone y hy
      simpa [resetAscLe] using this
    · simp only [selectBestAccount, husages, hcand, havail, Bool.false_eq_true,
        if_false, if_true]
      rw [hrl, hs]

/-- C5: with an exclusion in force, `selectBestAccount` never returns the
excluded account — on the scored path and the all-exhausted fallback path
alike — and it returns none exactly when zero eligible candidates remain
after dropping errored snapshots and the excluded account. -/
theorem C5_exclusion_respected (now : ℚ) (alive : Nat → Bool)
    (persisted : SelectorState) (usages : List APIUsageData) (x : String) :
    (∀ sel, selectBestAccount now alive persisted usages (some x) = some sel →
      sel.accountName ≠ x) ∧
    (selectBestAccount now alive persisted usages (some x) = none ↔
      candidatesOf usages (some x) = []) := by
  constructor
  · intro sel hsel
    simp only [selectBestAccount] at hsel
    by_cases husages : usages.isEmpty = true
    · rw [if_pos husages] at hsel; cases hsel
    · rw [if_neg husages] at hsel
      by_cases hcand : (candidatesOf usages (some x)).isEmpty = true
      · rw [if_pos hcand] at hsel; cases hsel
      · rw [if_neg hcand] at hsel
        by_cases havail : (availableOf usages (some x)).isEmpty = true
        · rw [if_pos havail] at hsel
          rcases hs : sortStable resetAscLe (rateLimitedOf usages (some x))
            with _ | ⟨best, rest⟩
          · rw [hs] at hsel; simp at hsel
          · rw [hs] at hsel
            have hbm : best ∈ rateLimitedOf usages (some x) := by
              rw [← mem_sortStable resetAscLe, hs]
              exact List.mem_cons_self _ _
            have hcf : candidateFilter (some x) best = true :=
              (List.mem_filter.mp ((List.mem_filter.mp hbm).1)).2
            have hne : best.accountName ≠ x := by
              rw [candidateFilter, Bool.and_eq_true, bne_iff_ne] at hcf
              exact fun hx => hcf.2 (by rw [hx])
            simp only [Option.some.injEq] at hsel
            subst hsel
            exact hne
        · rw [if_neg havail] at hsel
          rcases hs : sortStable scoreDescLe (scoreAccounts now
              (availableOf usages (some x)) (cleanStaleSessions alive persisted)
              (some x)) with _ | ⟨best, rest⟩
          · rw [hs] at hsel; simp at hsel
          · rw [hs] at hsel
            have hbm : best ∈ scoreAccounts now (availableOf usages (some x))
                (cleanStaleSessions alive persisted) (some x) := by
              rw [← mem_sortStable scoreDescLe, hs]
              exact List.mem_cons_self _ _
            rw [scoreAccounts] at hbm
            obtain ⟨u, hu, hfu⟩ := List.mem_map.mp hbm
            have hcf : candidateFilter (some x) u = true :=
              (List.mem_filter.mp hu).2
            have huname : best.usage = u := by rw [← hfu]
            have hne : best.usage.accountName ≠ x := by
              rw [huname]
              rw [candidateFilter, Bool.and_eq_true, bne_iff_ne] at hcf
              exact fun hx => hcf.2 (by rw [hx])
            simp only [Option.some.injEq] at hsel
            subst hsel
            exact hne
  · constructor
    · intro hnone
      by_contra hne
      obtain ⟨u0, hu0⟩ := List.exists_mem_of_ne_nil _ hne
      have hu0u : u0 ∈ usages := (List.mem_filter.mp hu0).1
      have husages : usages.isEmpty = false := by
        cases usages with
        | nil => cases hu0u
        | cons a l => rfl
      have hcand : (candidatesOf usages (some x)).isEmpty = false := by
        cases hc : candidatesOf usages (some x) with
        | nil => exact absurd hc hne
        | cons a l => rfl
      simp only [selectBestAccount, husages, hcand, Bool.false_eq_true, if_false]
        at hnone
      by_cases havail : (availableOf usages (some x)).isEmpty = true
      · rw [if_pos havail] at hnone
        have hu0rl : u0 ∈ rateLimitedOf usages (some x) := by
          rw [rateLimitedOf, List.mem_filter]
          refine ⟨hu0, ?_⟩
          have hnotav : u0 ∉ availableOf usages (some x) := by
            intro hmem
            rw [List.isEmpty_iff] at havail
            rw [havail] at hmem
            cases hmem
          rw [availableOf, List.mem_filter] at hnotav
          push_neg at hnotav
          have := hnotav hu0
          simpa using this
        rcases hs : sortStable resetAscLe (rateLimitedOf usages (some x))
          with _ | ⟨best, rest⟩
        · rw [(sortStable_eq_nil _ _).mp hs] at hu0rl
          cases hu0rl
        · rw [hs] at hnone
          simp at hnone
      · rw [if_neg havail] at hnone
        have hex : ∃ u1, u1 ∈ availableOf usages (some x) := by
          cases ha : availableOf usages (some x) with
          | nil => rw [List.isEmpty_iff] at havail; exact absurd ha havail
          | cons a l =>
            refine ⟨a, ?_⟩
            exact List.mem_cons_self _ _
        obtain ⟨u1, hu1⟩ := hex
        have hcf1 : candidateFilter (some x) u1 = true :=
          (List.mem_filter.mp ((List.mem_filter.mp hu1).1)).2
        have hscored_ne : scoreAccounts now (availableOf usages (some x))
            (cleanStaleSessions alive persisted) (some x) ≠ [] := by
          simp only [scoreAccounts]
          intro hc
          rw [List.map_eq_nil_iff] at hc
          have hmem : u1 ∈ (availableOf usages (some x)).filter (candidateFilter (some x)) :=
            List.mem_filter.mpr ⟨hu1, hcf1⟩
          rw [hc] at hmem
          cases hmem
        rcases hs : sortStable scoreDescLe (scoreAccounts now
            (availableOf usages (some x)) (cleanStaleSessions alive persisted)
            (some x)) with _ | ⟨best, rest⟩
        · exact absurd ((sortStable_eq_nil _ _).mp hs) hscored_ne
        · rw [hs] at hnone
          simp at hnone
    · intro hc
      by_cases husages : usages.isEmpty = true
      · simp only [selectBestAccount]
        rw [if_pos husages]
      · simp only [selectBestAccount, hc]
        rw [if_neg husages]
        rfl

/-- C3 (witness at a concrete input). -/
theorem C3_scored_path_maximal_witness :
    (∃ u ∈ [uNextB], candidateFilter none u = true ∧ 0 < u.fiveHourRemaining) ∧
    (∃ m l1 l2,
      scoredOf 0 noAlive emptySelectorState [uNextB] none = l1 ++ m :: l2 ∧
      (∀ y ∈ l1, y.adjustedScore < m.adjustedScore) ∧
      (∀ y ∈ scoredOf 0 noAlive emptySelectorState [uNextB] none,
        y.adjustedScore ≤ m.adjustedScore) ∧
      selectBestAccount 0 noAlive emptySelectorState [uNextB] none =
        some ⟨m.usage.accountName, m.usage.fiveHourRemaining,
          m.usage.sevenDayRemaining, m.adjustedScore, false, none⟩) :=
  ⟨⟨uNextB, by simp, by decide, by decide⟩,
   C3_scored_path_maximal 0 noAlive emptySelectorState [uNextB] none
     ⟨uNextB, by simp, by decide, by decide⟩⟩

/-- Exhausted account resetting in one hour. -/
def uRL1 : APIUsageData := ⟨"r1", 100, 0, 3600000, 50, 50, 604800000, none⟩

/-- Exhausted account resetting in thirty minutes. -/
def uRL2 : APIUsageData := ⟨"r2", 100, 0, 1800000, 50, 50, 604800000, none⟩

/-- C4 (witness at a concrete input). -/
theorem C4_all_exhausted_earliest_reset_witness :
    (candidatesOf [uRL1, uRL2] none ≠ [] ∧
      ∀ u ∈ candidatesOf [uRL1, uRL2] none, u.fiveHourRemaining = 0) ∧
    (∃ m l1 l2,
      candidatesOf [uRL1, uRL2] none = l1 ++ m :: l2 ∧
      (∀ y ∈ l1, m.fiveHourResetsAt < y.fiveHourResetsAt) ∧
      (∀ y ∈ candidatesOf [uRL1, uRL2] none,
        m.fiveHourResetsAt ≤ y.fiveHourResetsAt) ∧
      selectBestAccount 0 noAlive emptySelectorState [uRL1, uRL2] none =
        some ⟨m.accountName, m.fiveHourRemaining, m.sevenDayRemaining, 0, true,
          some m.fiveHourResetsAt⟩) :=
  ⟨⟨by decide, by decide⟩,
   C4_all_exhausted_earliest_reset 0 noAlive emptySelectorState [uRL1, uRL2] none
     (by decide) (by decide)⟩

/-- C5 (witness at a concrete input: account "b" scores 100 and is returned,
and by the exclusion theorem it differs from the excluded account "a"). -/
theorem C5_exclusion_respected_witness :
    selectBestAccount 0 noAlive emptySelectorState [uNextB] (some "a") =
      some ⟨"b", 100, 100, 100, false, none⟩ ∧ ("b" : String) ≠ "a" := by
  have hsel : selectBestAccount 0 noAlive emptySelectorState [uNextB] (some "a") =
      some ⟨"b", 100, 100, 100, false, none⟩ := by
    norm_num [selectBestAccount, candidatesOf, availableOf, rateLimitedOf,
      candidateFilter, scoreAccounts, getActiveAccounts, cleanStaleSessions,
      calculateBaseScore, calculateSessionResetBonus, calculateWeeklyResetBonus,
      hoursUntil, daysUntil, sortStable, insertStable, scoreDescLe, resetAscLe,
      WEIGHT_SESSION, WEIGHT_WEEKLY, PENALTY_ACTIVE_SESSION, PENALTY_LAST_USED,
      BONUS_PER_HOUR_CLOSER_SESSION_RESET, MAX_SESSION_RESET_HOURS_FOR_BONUS,
      BONUS_PER_DAY_CLOSER_WEEKLY_RESET, MAX_WEEKLY_RESET_DAYS_FOR_BONUS,
      uNextB, emptySelectorState, noAlive, List.filter, List.map]
    exact ⟨by decide, by decide⟩
  exact ⟨hsel,
    (C5_exclusion_respected 0 noAlive emptySelectorState [uNextB] "a").1 _ hsel⟩

/-- Scenario B account p: 88% session / 79% weekly, resets in 3h20m / 6d12h,
currently active (pid 7) and last used. -/
def usageP : APIUsageData := ⟨"p", 12, 88, 12000000, 21, 79, 561600000, none⟩

/-- Scenario B account q: 61% session / 57% weekly, resets in 3h20m / 3d13h,
neither active nor last used. -/
def usageQ : APIUsageData := ⟨"q", 39, 61, 12000000, 43, 57, 306000000, none⟩

/-- Scenario B registry state: p has a live session and is the last used. -/
def stateC6 : SelectorState := ⟨some "p", some "2025-01-01", [⟨"p", 7, "2025-01-01"⟩]⟩

/-- C6: with p both active and last used (−20 total penalty) and q penalty
free, the selector picks q: p's adjusted score 4559/60 ≈ 76.0 is below q's
18811/240 ≈ 78.4. -/
theorem C6_scenario_penalties_flip :
    selectBestAccount 0 allAlive stateC6 [usageP, usageQ] none =
      some ⟨"q", 61, 57, 18811/240, false, none⟩ := by
  norm_num [selectBestAccount, candidatesOf, availableOf, rateLimitedOf,
    candidateFilter, scoreAccounts, getActiveAccounts, cleanStaleSessions,
    calculateBaseScore, calculateSessionResetBonus, calculateWeeklyResetBonus,
    hoursUntil, daysUntil, sortStable, insertStable, scoreDescLe, resetAscLe,
    WEIGHT_SESSION, WEIGHT_WEEKLY, PENALTY_ACTIVE_SESSION, PENALTY_LAST_USED,
    BONUS_PER_HOUR_CLOSER_SESSION_RESET, MAX_SESSION_RESET_HOURS_FOR_BONUS,
    BONUS_PER_DAY_CLOSER_WEEKLY_RESET, MAX_WEEKLY_RESET_DAYS_FOR_BONUS,
    usageP, usageQ, stateC6, allAlive, List.filter, List.map]
  refine ⟨by decide, ?_⟩
  norm_num [show (("p" : String) = "q") = False from by simp,
    show (("q" : String) = "p") = False from by simp]
